import Mathlib

/-!
Shallow embedding of the Personal Knowledge Vault RAG pipeline
(`backend/rag_system.py`, `backend/utils.py`).

External capabilities (document loaders, text splitter, embedding provider,
vector store, generation model, filesystem) are modelled as oracle
parameters; the control flow, data model, dispatch and persistence logic of
`PersonalKnowledgeVault` are translated from the source.
-/

namespace Vault

/-! ### String and path helpers (Python `str.lower`, `pathlib.Path.name`,
`pathlib.Path.suffix`) -/

/-- `str.lower()` on the ASCII range (the range file extensions live in). -/
def strToLower (s : String) : String := String.mk (s.toList.map Char.toLower)

/-- `s[:n]` — the first `n` characters of `s`. -/
def strTake (s : String) (n : Nat) : String := String.mk (s.toList.take n)

/-- Split a character list on a separator character (groups between
separators, in order). -/
def splitOnChar (c : Char) : List Char → List (List Char)
  | [] => [[]]
  | a :: as =>
    match splitOnChar c as with
    | [] => [[a]]
    | g :: gs => if a = c then [] :: g :: gs else (a :: g) :: gs

/-- `pathlib.Path.name`: the final path component (for paths without a
trailing separator). -/
def pathName (p : String) : String :=
  String.mk ((splitOnChar '/' p.toList).getLastD [])

/-- Index of the last occurrence of `c` in `cs`, if any. -/
def lastIdxOf : List Char → Char → Option Nat
  | [], _ => none
  | a :: as, c =>
    match lastIdxOf as c with
    | some i => some (i + 1)
    | none => if a = c then some 0 else none

/-- `pathlib.Path.suffix`: `name[i:]` where `i = name.rfind('.')`, provided
`0 < i < len(name) - 1`; otherwise the empty string. -/
def pathSuffix (p : String) : String :=
  let name := pathName p
  let cs := name.toList
  match lastIdxOf cs '.' with
  | some i => if 0 < i ∧ i < cs.length - 1 then String.mk (cs.drop i) else ""
  | none => ""

/-! ### `backend/utils.py`: `DocumentProcessor` -/

/-- `DocumentProcessor.SUPPORTED_EXTENSIONS`. -/
def SUPPORTED_EXTENSIONS : List String := [".pdf", ".txt", ".docx", ".doc", ".md"]

/-- `DocumentProcessor.MAX_FILE_SIZE = 10 * 1024 * 1024`. -/
def MAX_FILE_SIZE : Nat := 10 * 1024 * 1024

/-- `DocumentProcessor.is_supported_file`:
`Path(filename).suffix.lower() in SUPPORTED_EXTENSIONS`. -/
def isSupportedFile (filename : String) : Bool :=
  strToLower (pathSuffix filename) ∈ SUPPORTED_EXTENSIONS

/-- `DocumentProcessor.validate_file_size`: `getsize(path) <= MAX_FILE_SIZE`
(the size of the file is passed in place of the `getsize` call). -/
def validateFileSize (size : Nat) : Bool := size ≤ MAX_FILE_SIZE

/-! ### Data model -/

/-- One entry of the `sources` list built in `query`
(`{"content": ..., "source": ..., "page": ...}`). -/
structure SourceSnippet where
  content : String
  source : String
  page : Option Int
deriving DecidableEq, Repr

/-- One chat-history entry (`chat_entry` in `query`): a plain record with
`id`, `timestamp`, `question`, `answer`, `sources`. -/
structure ChatTurn where
  id : String
  timestamp : String
  question : String
  answer : String
  sources : List SourceSnippet
deriving DecidableEq, Repr

/-! ### Python list slicing -/

/-- Python `l[i:]` for an arbitrary integer `i`: negative indices count from
the end (clamped at 0), non-negative indices drop from the front (clamped at
`len`).  Note `l[-0:] = l[0:] = l`. -/
def pySliceFrom (l : List α) (i : Int) : List α :=
  if i < 0 then l.drop (l.length + i).toNat else l.drop i.toNat

/-! ### `_format_chat_context` -/

/-- The two lines contributed by one history entry in
`_format_chat_context`. -/
def formatEntry (t : ChatTurn) : List String :=
  ["Q: " ++ t.question, "A: " ++ t.answer]

/-- `PersonalKnowledgeVault._format_chat_context(max_messages=5)`:
returns `"No previous conversation."` on empty history, otherwise joins
`"Q: ..."` / `"A: ..."` lines of `chat_history[-max_messages:]` with
newlines. -/
def formatChatContext (chatHistory : List ChatTurn) (maxMessages : Int := 5) : String :=
  if chatHistory.isEmpty then "No previous conversation."
  else
    let recentMessages := pySliceFrom chatHistory (-maxMessages)
    String.intercalate "\n" (recentMessages.map formatEntry).flatten

/-! ### `get_chat_history` -/

/-- `PersonalKnowledgeVault.get_chat_history(limit=None)`:
`if limit: return chat_history[-limit:]` — note Python truthiness makes both
`None` and `0` fall through to returning the full history. -/
def getChatHistory (chatHistory : List ChatTurn) (limit : Option Int) : List ChatTurn :=
  match limit with
  | some l => if l ≠ 0 then pySliceFrom chatHistory (-l) else chatHistory
  | none => chatHistory

/-! ### JSON values (`json.dump` / `json.load` on the chat-history file) -/

/-- JSON values, as produced by `json.dump` on the chat-history list. -/
inductive Json where
  | jnull : Json
  | jstr : String → Json
  | jint : Int → Json
  | jarr : List Json → Json
  | jobj : List (String × Json) → Json
deriving Repr

/-- Field lookup in a JSON object (Python dict access). -/
def jlookup (fields : List (String × Json)) (k : String) : Option Json :=
  (fields.find? (fun f => f.1 == k)).map (fun f => f.2)

/-- Serialization of one `sources` entry into a JSON object, mirroring the
dict literal built in `query`. -/
def encodeSnippet (s : SourceSnippet) : Json :=
  .jobj [("content", .jstr s.content), ("source", .jstr s.source),
         ("page", match s.page with | some n => .jint n | none => .jnull)]

/-- Serialization of one `chat_entry` dict into a JSON object. -/
def encodeTurn (t : ChatTurn) : Json :=
  .jobj [("id", .jstr t.id), ("timestamp", .jstr t.timestamp),
         ("question", .jstr t.question), ("answer", .jstr t.answer),
         ("sources", .jarr (t.sources.map encodeSnippet))]

/-- `json.dump(self.chat_history, ...)`: the chat-history list as a JSON
array. -/
def dumpHistory (h : List ChatTurn) : Json := .jarr (h.map encodeTurn)

/-- Parse one `sources` entry back from JSON. -/
def decodeSnippet : Json → Option SourceSnippet
  | .jobj fields =>
    match jlookup fields "content", jlookup fields "source", jlookup fields "page" with
    | some (.jstr c), some (.jstr s), some (.jnull) => some ⟨c, s, none⟩
    | some (.jstr c), some (.jstr s), some (.jint n) => some ⟨c, s, some n⟩
    | _, _, _ => none
  | _ => none

/-- Parse a list of `sources` entries back from JSON values. -/
def decodeSnippets : List Json → Option (List SourceSnippet)
  | [] => some []
  | j :: js =>
    match decodeSnippet j, decodeSnippets js with
    | some s, some ss => some (s :: ss)
    | _, _ => none

/-- Parse one chat-history entry back from JSON. -/
def decodeTurn : Json → Option ChatTurn
  | .jobj fields =>
    match jlookup fields "id", jlookup fields "timestamp", jlookup fields "question",
          jlookup fields "answer", jlookup fields "sources" with
    | some (.jstr i), some (.jstr ts), some (.jstr q), some (.jstr a),
      some (.jarr srcs) =>
      match decodeSnippets srcs with
      | some ss => some ⟨i, ts, q, a, ss⟩
      | none => none
    | _, _, _, _, _ => none
  | _ => none

/-- Parse a list of chat-history entries back from JSON values. -/
def decodeTurns : List Json → Option (List ChatTurn)
  | [] => some []
  | j :: js =>
    match decodeTurn j, decodeTurns js with
    | some t, some ts => some (t :: ts)
    | _, _ => none

/-- Parse the whole chat-history file content. -/
def decodeHistory : Json → Option (List ChatTurn)
  | .jarr js => decodeTurns js
  | _ => none

/-! ### Conversation-memory state and persistence -/

/-- The memory-relevant state of a `PersonalKnowledgeVault`: the in-memory
`chat_history` list and the durable `chat_history.json` content (`none`
when the file does not exist). -/
structure VaultState where
  chatHistory : List ChatTurn
  store : Option Json
deriving Repr

/-- `_load_chat_history`: missing file or unparsable content degrades to
`[]`; otherwise the stored array of chat entries is returned. -/
def loadChatHistory (store : Option Json) : List ChatTurn :=
  match store with
  | none => []
  | some j => (decodeHistory j).getD []

/-- `_save_chat_history`: the durable file is rewritten in full with the
serialization of the in-memory list. -/
def saveChatHistory (chatHistory : List ChatTurn) : Option Json :=
  some (dumpHistory chatHistory)

/-- `clear_chat_history` (the normal-return path: empty the in-memory list,
then flush; a raising flush would propagate and the call would not
return). -/
def clearChatHistory (_ : VaultState) : VaultState :=
  { chatHistory := [], store := saveChatHistory [] }

/-! ### Documents, chunks and the vector index -/

/-- A LangChain `Document` restricted to the metadata keys this program
reads or writes (`source`, `page`, `added_date`, `file_type`); absent keys
are `none`. -/
structure PageDoc where
  content : String
  source : Option String
  page : Option Int
  addedDate : Option String
  fileType : Option String
deriving DecidableEq, Repr

/-- The metadata stamping loop in `add_documents`:
`doc.metadata.update({"source": file_path.name, "added_date": now,
"file_type": file_path.suffix})`. -/
def stampMeta (p : String) (now : String) (d : PageDoc) : PageDoc :=
  { d with source := some (pathName p), addedDate := some now,
           fileType := some (pathSuffix p) }

/-- View of the vector store for the read-only introspection calls:
either reachable with a list of stored entries, or unavailable (any
exception from the underlying client). -/
inductive IndexView where
  | unavailable : IndexView
  | ok : List PageDoc → IndexView

/-- `get_document_count`: `collection.count()` wrapped in a bare
`try/except` returning 0. -/
def getDocumentCount : IndexView → Nat
  | .unavailable => 0
  | .ok entries => entries.length

/-- `list_sources`: collect the `source` metadata values present across all
entries into a set, return them sorted; any exception degrades to `[]`. -/
def listSources : IndexView → List String
  | .unavailable => []
  | .ok entries =>
    ((entries.filterMap (fun d => d.source)).dedup).insertionSort (· ≤ ·)

/-! ### `query` -/

/-- The structured result dict returned by `query`; a successful result has
no `error` key (`error = none`). -/
structure QueryResult where
  answer : String
  sources : List SourceSnippet
  chatId : Option String
  success : Bool
  error : Option String
deriving DecidableEq, Repr

/-- Oracle for the external effects one `query` call performs, in program
order: the retriever invocation, the RAG-chain (generation) invocation, the
chat-history flush (each may raise, carrying the exception's message), plus
the fresh `uuid4` and `datetime.now` values. A flush failure is placed at
the opening of the store file, so the durable content is untouched. -/
structure QueryEnv where
  retrieved : Except String (List PageDoc)
  generated : Except String String
  saveOutcome : Except String Unit
  newId : String
  now : String

/-- The `except` branch of `query`: answer embeds `str(e)`, empty sources,
`chat_id` `None`, `success` `False`, plus the `error` key. -/
def failResult (e : String) : QueryResult :=
  { answer := "I encountered an error: " ++ e, sources := [],
    chatId := none, success := false, error := some e }

/-- One `sources` entry built from a retrieved document:
`{"content": doc.page_content[:200] + "...",
"source": doc.metadata.get("source", "Unknown"),
"page": doc.metadata.get("page", None)}`. -/
def mkSnippet (d : PageDoc) : SourceSnippet :=
  { content := strTake d.content 200 ++ "...",
    source := d.source.getD "Unknown",
    page := d.page }

/-- `PersonalKnowledgeVault.query`: retrieve, generate, build the sources
list and the chat entry, append it to the in-memory history, flush, and
return the success dict; any exception along the way is caught by the
enclosing `except` and converted into `failResult`. An exception raised by
the flush occurs after `chat_history.append`, which is not rolled back. -/
def query (env : QueryEnv) (question : String) (st : VaultState) :
    QueryResult × VaultState :=
  match env.retrieved with
  | .error e => (failResult e, st)
  | .ok docs =>
    match env.generated with
    | .error e => (failResult e, st)
    | .ok answer =>
      let sources := docs.map mkSnippet
      let chatEntry : ChatTurn :=
        { id := env.newId, timestamp := env.now, question := question,
          answer := answer, sources := sources }
      let hist := st.chatHistory ++ [chatEntry]
      match env.saveOutcome with
      | .error e => (failResult e, { st with chatHistory := hist })
      | .ok _ =>
        ({ answer := answer, sources := sources,
           chatId := some chatEntry.id, success := true, error := none },
         { chatHistory := hist, store := saveChatHistory hist })

/-! ### `add_documents` -/

/-- The loader picked by the `if file_path.suffix.lower() == ...` chain in
`add_documents` (`TextLoader` serves both `.txt` and `.md`). -/
inductive LoaderKind where
  | pdf : LoaderKind
  | text : LoaderKind
  | docx : LoaderKind
deriving DecidableEq, Repr

/-- The extension-dispatch chain of `add_documents`, applied to the already
lowercased suffix; `none` is the `else` branch (unsupported type). -/
def selectLoader (sfx : String) : Option LoaderKind :=
  if sfx == ".pdf" then some .pdf
  else if sfx == ".txt" then some .text
  else if sfx == ".docx" || sfx == ".doc" then some .docx
  else if sfx == ".md" then some .text
  else none

/-- Per-path oracle for the external effects of processing one file: the
file's on-disk size, the outcome of `loader.load()` (or of the splitter —
both raise into the same per-file `except`), and the outcome of
`vector_store.add_documents`. -/
structure FileEnv where
  size : Nat
  load : Except String (List PageDoc)
  addOutcome : Except String Unit

/-- One iteration of the `for file_path in file_paths` loop: dispatch on
the lowercased suffix, load, stamp metadata, split, add to the vector
store. Returns the updated index contents and `none` on success or the
error string recorded for this file. The source performs no file-size
check anywhere on this path. -/
def processFile (split : List PageDoc → List PageDoc) (env : String → FileEnv)
    (now : String) (ix : List PageDoc) (p : String) :
    List PageDoc × Option String :=
  match selectLoader (strToLower (pathSuffix p)) with
  | none => (ix, some ("Unsupported file type: " ++ p))
  | some _ =>
    match (env p).load with
    | .error e => (ix, some ("Error processing " ++ p ++ ": " ++ e))
    | .ok documents =>
      let documents := documents.map (stampMeta p now)
      let splits := split documents
      match (env p).addOutcome with
      | .error e => (ix, some ("Error processing " ++ p ++ ": " ++ e))
      | .ok _ => (ix ++ splits, none)

/-- The `results` dict of `add_documents`. -/
structure BatchResults where
  processed : Nat
  failed : Nat
  errors : List String
deriving DecidableEq, Repr

/-- The `for` loop of `add_documents`: each file is processed inside its
own `try/except`, so one file's failure never aborts the rest. -/
def addDocumentsGo (split : List PageDoc → List PageDoc)
    (env : String → FileEnv) (now : String) :
    List String → List PageDoc → BatchResults → List PageDoc × BatchResults
  | [], ix, acc => (ix, acc)
  | p :: ps, ix, acc =>
    match processFile split env now ix p with
    | (ix', none) =>
      addDocumentsGo split env now ps ix'
        { acc with processed := acc.processed + 1 }
    | (ix', some e) =>
      addDocumentsGo split env now ps ix'
        { acc with failed := acc.failed + 1, errors := acc.errors ++ [e] }

/-- `PersonalKnowledgeVault.add_documents`: fold the per-file loop over the
submitted paths starting from `{"processed": 0, "failed": 0, "errors": []}`;
`split` is the configured `RecursiveCharacterTextSplitter.split_documents`
(an external, metadata-preserving transformation). -/
def addDocuments (split : List PageDoc → List PageDoc)
    (env : String → FileEnv) (now : String) (filePaths : List String)
    (ix : List PageDoc) : List PageDoc × BatchResults :=
  addDocumentsGo split env now filePaths ix ⟨0, 0, []⟩

/-- Classification of one file's fate, independent of index state: the
error string it contributes, or `none` when it is processed. -/
def fileError (env : String → FileEnv) (p : String) : Option String :=
  match selectLoader (strToLower (pathSuffix p)) with
  | none => some ("Unsupported file type: " ++ p)
  | some _ =>
    match (env p).load with
    | .error e => some ("Error processing " ++ p ++ ": " ++ e)
    | .ok _ =>
      match (env p).addOutcome with
      | .error e => some ("Error processing " ++ p ++ ": " ++ e)
      | .ok _ => none

/-- Whether an `Except` carries a success value. -/
def isOkE : Except ε α → Bool
  | .ok _ => true
  | .error _ => false

/-- What a failed `query` call guarantees: the failure dict embeds the error
text with empty sources, absent chat id, and untouched durable store; the
in-memory history is untouched when retrieval or generation raised, and
retains the freshly appended turn when only the flush raised. -/
def QueryFailedSpec (env : QueryEnv) (q : String) (st : VaultState) : Prop :=
  ((query env q st).1.answer
      = "I encountered an error: " ++ ((query env q st).1.error.getD "")) ∧
  (query env q st).1.sources = [] ∧
  (query env q st).1.chatId = none ∧
  (query env q st).2.store = st.store ∧
  (if isOkE env.retrieved && isOkE env.generated
   then ∃ t, (query env q st).2.chatHistory = st.chatHistory ++ [t]
   else (query env q st).2 = st)

/-! ## Helper lemmas -/

theorem pySliceFrom_zero (l : List α) : pySliceFrom l 0 = l := by
  simp [pySliceFrom]

theorem pySliceFrom_negNat (l : List α) (k : Int) (hk : 0 < k) :
    pySliceFrom l (-k) = l.drop (l.length - k.toNat) := by
  have hneg : -k < 0 := by omega
  simp only [pySliceFrom, if_pos hneg]
  congr 1
  omega

theorem processFile_snd (split : List PageDoc → List PageDoc)
    (env : String → FileEnv) (now : String) (ix : List PageDoc) (p : String) :
    (processFile split env now ix p).2 = fileError env p := by
  simp only [processFile, fileError]
  cases selectLoader (strToLower (pathSuffix p)) with
  | none => rfl
  | some k =>
    cases (env p).load with
    | error e => rfl
    | ok docs =>
      cases (env p).addOutcome with
      | error e => rfl
      | ok u => rfl

theorem addDocumentsGo_spec (split : List PageDoc → List PageDoc)
    (env : String → FileEnv) (now : String) (paths : List String)
    (ix : List PageDoc) (acc : BatchResults) :
    (addDocumentsGo split env now paths ix acc).2.processed
      = acc.processed + (paths.filter (fun p => (fileError env p).isNone)).length ∧
    (addDocumentsGo split env now paths ix acc).2.failed
      = acc.failed + (paths.filterMap (fileError env)).length ∧
    (addDocumentsGo split env now paths ix acc).2.errors
      = acc.errors ++ paths.filterMap (fileError env) := by
  induction paths generalizing ix acc with
  | nil => simp [addDocumentsGo]
  | cons p ps ih =>
    have hsnd := processFile_snd split env now ix p
    rcases hpf : processFile split env now ix p with ⟨ix', oe⟩
    rw [hpf] at hsnd
    cases oe with
    | none =>
      have hf : fileError env p = none := hsnd.symm
      obtain ⟨ih1, ih2, ih3⟩ :=
        ih ix' { acc with processed := acc.processed + 1 }
      refine ⟨?_, ?_, ?_⟩
      · simp only [addDocumentsGo, hpf, ih1]
        simp [List.filter_cons, hf]
        omega
      · simp only [addDocumentsGo, hpf, ih2]
        simp [List.filterMap_cons, hf]
      · simp only [addDocumentsGo, hpf, ih3]
        simp [List.filterMap_cons, hf]
    | some e =>
      have hf : fileError env p = some e := hsnd.symm
      obtain ⟨ih1, ih2, ih3⟩ :=
        ih ix' { acc with failed := acc.failed + 1, errors := acc.errors ++ [e] }
      refine ⟨?_, ?_, ?_⟩
      · simp only [addDocumentsGo, hpf, ih1]
        simp [List.filter_cons, hf]
      · simp only [addDocumentsGo, hpf, ih2]
        simp [List.filterMap_cons, hf]
        omega
      · simp only [addDocumentsGo, hpf, ih3]
        simp [List.filterMap_cons, hf]

theorem length_filter_isNone_add_length_filterMap (f : α → Option β) (l : List α) :
    (l.filter (fun p => (f p).isNone)).length + (l.filterMap f).length = l.length := by
  induction l with
  | nil => rfl
  | cons a l ih =>
    cases h : f a <;> simp [List.filter_cons, List.filterMap_cons, h] <;> omega

theorem selectLoader_isSome (s : String) :
    (selectLoader s).isSome = decide (s ∈ SUPPORTED_EXTENSIONS) := by
  simp only [selectLoader, SUPPORTED_EXTENSIONS]
  split_ifs with h1 h2 h3 h4 <;> simp_all [List.mem_cons]
  all_goals tauto

theorem decodeSnippet_encodeSnippet (s : SourceSnippet) :
    decodeSnippet (encodeSnippet s) = some s := by
  cases s with
  | mk c src pg => cases pg <;> rfl

theorem decodeSnippets_encode (l : List SourceSnippet) :
    decodeSnippets (l.map encodeSnippet) = some l := by
  induction l with
  | nil => rfl
  | cons s l ih =>
    simp only [List.map_cons, decodeSnippets, decodeSnippet_encodeSnippet, ih]

theorem decodeTurn_encodeTurn (t : ChatTurn) :
    decodeTurn (encodeTurn t) = some t := by
  cases t with
  | mk i ts q a srcs =>
    have h : decodeTurn (encodeTurn ⟨i, ts, q, a, srcs⟩)
        = match decodeSnippets (srcs.map encodeSnippet) with
          | some ss => some ⟨i, ts, q, a, ss⟩
          | none => none := rfl
    rw [h, decodeSnippets_encode]

theorem decodeTurns_encode (h : List ChatTurn) :
    decodeTurns (h.map encodeTurn) = some h := by
  induction h with
  | nil => rfl
  | cons t h ih =>
    simp only [List.map_cons, decodeTurns, decodeTurn_encodeTurn, ih]

theorem load_save_roundtrip (h : List ChatTurn) :
    loadChatHistory (saveChatHistory h) = h := by
  simp only [loadChatHistory, saveChatHistory, dumpHistory, decodeHistory,
    decodeTurns_encode, Option.getD_some]

/-! ## Claims -/

/-- C3 (confirmed): `add_documents` processes each file independently — the
batch result satisfies `processed + failed = number of input paths`,
`errors` is exactly the per-file error string of each failed file, in file
submission order, and has one entry per failed file. -/
theorem addDocuments_batch_isolation (split : List PageDoc → List PageDoc)
    (env : String → FileEnv) (now : String) (filePaths : List String)
    (ix : List PageDoc) :
    (addDocuments split env now filePaths ix).2.processed
        + (addDocuments split env now filePaths ix).2.failed
      = filePaths.length ∧
    (addDocuments split env now filePaths ix).2.errors
      = filePaths.filterMap (fileError env) ∧
    (addDocuments split env now filePaths ix).2.errors.length
      = (addDocuments split env now filePaths ix).2.failed := by
  obtain ⟨h1, h2, h3⟩ := addDocumentsGo_spec split env now filePaths ix ⟨0, 0, []⟩
  refine ⟨?_, ?_, ?_⟩
  · rw [addDocuments, h1, h2]
    simpa using length_filter_isNone_add_length_filterMap (fileError env) filePaths
  · rw [addDocuments, h3]; rfl
  · rw [addDocuments, h3, h2]; simp

/-- C9 (confirmed): a file whose lowercased extension is outside
`{pdf, txt, docx, doc, md}` is counted as failed with an error string that
begins with `"Unsupported file type: "`; ingesting it alone yields
`{processed: 0, failed: 1, errors: ["Unsupported file type: <path>"]}` and
leaves the index untouched. -/
theorem addDocuments_unsupported_extension (split : List PageDoc → List PageDoc)
    (env : String → FileEnv) (now : String) (ix : List PageDoc) (p : String)
    (h : selectLoader (strToLower (pathSuffix p)) = none) :
    addDocuments split env now [p] ix
      = (ix, ⟨0, 1, ["Unsupported file type: " ++ p]⟩) := by
  simp [addDocuments, addDocumentsGo, processFile, h]

/-- C9 witness: a single `.exe` file is rejected exactly as claimed. -/
theorem addDocuments_unsupported_extension_witness :
    selectLoader (strToLower (pathSuffix "malware.exe")) = none ∧
    addDocuments (fun ds => ds) (fun _ => ⟨0, Except.ok [], Except.ok ()⟩)
        "now" ["malware.exe"] []
      = ([], ⟨0, 1, ["Unsupported file type: " ++ "malware.exe"]⟩) :=
  ⟨by decide,
   addDocuments_unsupported_extension (fun ds => ds)
     (fun _ => ⟨0, Except.ok [], Except.ok ()⟩) "now" [] "malware.exe" (by decide)⟩

/-- C5 (code bug): no size check happens anywhere on the ingestion path —
a supported file one byte over `MAX_FILE_SIZE` fails `validate_file_size`
(which nothing ever calls) yet is loaded, split and added to the index,
reported as processed rather than rejected before load. -/
theorem addDocuments_oversized_file_not_rejected :
    validateFileSize (MAX_FILE_SIZE + 1) = false ∧
    (addDocuments (fun ds => ds)
        (fun _ => ⟨MAX_FILE_SIZE + 1,
          Except.ok [⟨"chunk text", none, none, none, none⟩], Except.ok ()⟩)
        "2024-01-01" ["big.txt"] []).2 = ⟨1, 0, []⟩ ∧
    (addDocuments (fun ds => ds)
        (fun _ => ⟨MAX_FILE_SIZE + 1,
          Except.ok [⟨"chunk text", none, none, none, none⟩], Except.ok ()⟩)
        "2024-01-01" ["big.txt"] []).1
      = [⟨"chunk text", some "big.txt", none, some "2024-01-01", some ".txt"⟩] := by
  refine ⟨by decide, by decide, by decide⟩

/-- C10 (confirmed): extension dispatch is case-insensitive — supportedness
of any path is decided by its lowercased suffix (exactly
`DocumentProcessor.is_supported_file`), and a file whose lowercased suffix
is supported is processed rather than rejected whenever its loader and the
index add succeed. -/
theorem addDocuments_dispatch_case_insensitive
    (split : List PageDoc → List PageDoc) (env : String → FileEnv)
    (now : String) (ix : List PageDoc) (p : String) (docs : List PageDoc)
    (hsupp : isSupportedFile p = true)
    (hload : (env p).load = .ok docs)
    (hadd : (env p).addOutcome = .ok ()) :
    (addDocuments split env now [p] ix).2 = ⟨1, 0, []⟩ ∧
    ∀ q : String,
      (selectLoader (strToLower (pathSuffix q))).isSome = isSupportedFile q := by
  have hiff : ∀ q : String,
      (selectLoader (strToLower (pathSuffix q))).isSome = isSupportedFile q := by
    intro q
    rw [selectLoader_isSome]
    rfl
  refine ⟨?_, hiff⟩
  have hsome : (selectLoader (strToLower (pathSuffix p))).isSome = true := by
    rw [hiff]; exact hsupp
  obtain ⟨k, hk⟩ := Option.isSome_iff_exists.mp hsome
  simp [addDocuments, addDocumentsGo, processFile, hk, hload, hadd]

/-- C10 witness: `REPORT.PDF` (and `notes.MD`) are supported and a
successfully loading `REPORT.PDF` is processed, not rejected. -/
theorem addDocuments_dispatch_case_insensitive_witness :
    isSupportedFile "REPORT.PDF" = true ∧
    isSupportedFile "notes.MD" = true ∧
    ((fun _ : String => (⟨0, Except.ok [⟨"text", none, none, none, none⟩],
        Except.ok ()⟩ : FileEnv)) "REPORT.PDF").load
      = .ok [⟨"text", none, none, none, none⟩] ∧
    (addDocuments (fun ds => ds)
        (fun _ => ⟨0, Except.ok [⟨"text", none, none, none, none⟩], Except.ok ()⟩)
        "now" ["REPORT.PDF"] []).2 = ⟨1, 0, []⟩ :=
  ⟨by decide, by decide, rfl,
   (addDocuments_dispatch_case_insensitive (fun ds => ds)
     (fun _ => ⟨0, Except.ok [⟨"text", none, none, none, none⟩], Except.ok ()⟩)
     "now" [] "REPORT.PDF" [⟨"text", none, none, none, none⟩]
     (by decide) rfl rfl).1⟩

/-- C6 (confirmed): `get_document_count` returns the number of stored
entries and degrades to 0 when the index is unreachable (and on an empty
index `entries.length = 0`); `list_sources` returns the distinct `source`
metadata values in ascending order, and degrades to the empty list instead
of propagating an internal failure. -/
theorem index_reads_degrade :
    getDocumentCount .unavailable = 0 ∧
    (∀ entries, getDocumentCount (.ok entries) = entries.length) ∧
    listSources .unavailable = [] ∧
    ∀ entries : List PageDoc,
      (listSources (.ok entries)).Sorted (· ≤ ·) ∧
      (listSources (.ok entries)).Nodup ∧
      ∀ s, s ∈ listSources (.ok entries) ↔ ∃ d ∈ entries, d.source = some s := by
  refine ⟨rfl, fun _ => rfl, rfl, fun entries => ⟨?_, ?_, ?_⟩⟩
  · exact List.sorted_insertionSort _ _
  · exact (List.perm_insertionSort _ _).nodup_iff.mpr (List.nodup_dedup _)
  · intro s
    rw [listSources, List.Perm.mem_iff (List.perm_insertionSort _ _),
      List.mem_dedup, List.mem_filterMap]

/-- C7 (confirmed): appending a turn to the history, flushing, and freshly
loading from the durable store yields the same sequence, whose last element
is the appended turn, field for field. -/
theorem append_flush_load_roundtrip (hist : List ChatTurn) (turn : ChatTurn) :
    loadChatHistory (saveChatHistory (hist ++ [turn])) = hist ++ [turn] ∧
    (loadChatHistory (saveChatHistory (hist ++ [turn]))).getLast? = some turn := by
  refine ⟨load_save_roundtrip _, ?_⟩
  rw [load_save_roundtrip]
  exact List.getLast?_concat _

/-- C4 counterexample: on a non-empty one-turn history,
`_format_chat_context(0)` returns the formatted full history (Python
`chat_history[-0:]` is the whole list), not the literal
`"No previous conversation."` the claim requires. -/
theorem formatChatContext_zero_counterexample :
    formatChatContext [⟨"id0", "t0", "q1", "a1", []⟩] 0 = "Q: q1\nA: a1" ∧
    formatChatContext [⟨"id0", "t0", "q1", "a1", []⟩] 0
      ≠ "No previous conversation." := by
  constructor
  · decide
  · decide

/-- C4 (amended): `_format_chat_context(0)` on a non-empty history formats
the ENTIRE history (the `[-0:]` slice is the whole list);
`"No previous conversation."` is returned exactly on an empty history; and
`_format_chat_context(5)` on a 3-turn history renders all 3 turns as
alternating `Q:`/`A:` lines in chronological order. -/
theorem formatChatContext_amended (hist : List ChatTurn) (h : hist ≠ [])
    (t1 t2 t3 : ChatTurn) :
    formatChatContext hist 0
      = String.intercalate "\n" (hist.map formatEntry).flatten ∧
    formatChatContext [] 0 = "No previous conversation." ∧
    formatChatContext [t1, t2, t3] 5
      = String.intercalate "\n"
          ["Q: " ++ t1.question, "A: " ++ t1.answer,
           "Q: " ++ t2.question, "A: " ++ t2.answer,
           "Q: " ++ t3.question, "A: " ++ t3.answer] := by
  refine ⟨?_, rfl, ?_⟩
  · have h1 : hist.isEmpty = false := by
      cases hist with
      | nil => exact absurd rfl h
      | cons a l => rfl
    simp [formatChatContext, h1, pySliceFrom_zero]
  · simp [formatChatContext, pySliceFrom, formatEntry]

/-- C4 witness: the amended behavior at concrete histories. -/
theorem formatChatContext_amended_witness :
    ([(⟨"id0", "t0", "q1", "a1", []⟩ : ChatTurn)] ≠ []) ∧
    (formatChatContext [⟨"id0", "t0", "q1", "a1", []⟩] 0
        = String.intercalate "\n"
            (([(⟨"id0", "t0", "q1", "a1", []⟩ : ChatTurn)]).map formatEntry).flatten ∧
     formatChatContext [] 0 = "No previous conversation." ∧
     formatChatContext [⟨"ia", "ta", "qa", "aa", []⟩, ⟨"ib", "tb", "qb", "ab", []⟩,
         ⟨"ic", "tc", "qc", "ac", []⟩] 5
       = String.intercalate "\n"
           ["Q: " ++ (⟨"ia", "ta", "qa", "aa", []⟩ : ChatTurn).question,
            "A: " ++ (⟨"ia", "ta", "qa", "aa", []⟩ : ChatTurn).answer,
            "Q: " ++ (⟨"ib", "tb", "qb", "ab", []⟩ : ChatTurn).question,
            "A: " ++ (⟨"ib", "tb", "qb", "ab", []⟩ : ChatTurn).answer,
            "Q: " ++ (⟨"ic", "tc", "qc", "ac", []⟩ : ChatTurn).question,
            "A: " ++ (⟨"ic", "tc", "qc", "ac", []⟩ : ChatTurn).answer]) :=
  ⟨by decide, formatChatContext_amended _ (by decide) _ _ _⟩

/-- C8 counterexample: with a one-turn history, `get_chat_history(0)`
returns the FULL history (Python `if limit:` is falsy at 0), not the empty
suffix of length 0 the claim requires. -/
theorem getChatHistory_zero_counterexample :
    getChatHistory [⟨"id0", "t0", "q1", "a1", []⟩] (some 0)
      = [⟨"id0", "t0", "q1", "a1", []⟩] ∧
    getChatHistory [⟨"id0", "t0", "q1", "a1", []⟩] (some 0) ≠ [] := by
  constructor
  · rfl
  · decide

/-- C8 (amended): for every POSITIVE `limit`, `get_chat_history(limit)`
returns exactly the last `limit` turns in order; with `limit` equal to 0 or
absent it returns the full sequence. -/
theorem getChatHistory_amended (hist : List ChatTurn) (l : Int) (h : 0 < l) :
    getChatHistory hist (some l) = hist.drop (hist.length - l.toNat) ∧
    getChatHistory hist (some 0) = hist ∧
    getChatHistory hist none = hist := by
  have hne : l ≠ 0 := by omega
  refine ⟨?_, by simp [getChatHistory], rfl⟩
  have h2 : getChatHistory hist (some l) = pySliceFrom hist (-l) := by
    simp [getChatHistory, hne]
  rw [h2]
  exact pySliceFrom_negNat hist l h

/-- C8 witness: the amended behavior at a concrete two-turn history and
`limit = 1`. -/
theorem getChatHistory_amended_witness :
    (0 : Int) < 1 ∧
    (getChatHistory [⟨"ia", "ta", "qa", "aa", []⟩, ⟨"ib", "tb", "qb", "ab", []⟩]
        (some 1)
      = [(⟨"ia", "ta", "qa", "aa", []⟩ : ChatTurn),
         ⟨"ib", "tb", "qb", "ab", []⟩].drop
          ([(⟨"ia", "ta", "qa", "aa", []⟩ : ChatTurn),
            ⟨"ib", "tb", "qb", "ab", []⟩].length - (1 : Int).toNat) ∧
    getChatHistory [⟨"ia", "ta", "qa", "aa", []⟩, ⟨"ib", "tb", "qb", "ab", []⟩]
        (some 0)
      = [⟨"ia", "ta", "qa", "aa", []⟩, ⟨"ib", "tb", "qb", "ab", []⟩] ∧
    getChatHistory [⟨"ia", "ta", "qa", "aa", []⟩, ⟨"ib", "tb", "qb", "ab", []⟩]
        none
      = [⟨"ia", "ta", "qa", "aa", []⟩, ⟨"ib", "tb", "qb", "ab", []⟩]) :=
  ⟨by decide, getChatHistory_amended _ 1 (by decide)⟩

/-- C1 counterexample: when the history flush raises during recording
(after the in-memory `append`), `query` returns the failure dict but the
conversation memory is NOT unchanged — the in-memory sequence retains the
appended turn, refuting the claim that every failing step leaves memory as
it was before the call. -/
theorem query_flush_failure_counterexample :
    ((query ⟨Except.ok [], Except.ok "ans", Except.error "disk full", "id1", "t0"⟩
        "q" ⟨[], none⟩).1.success = false) ∧
    (query ⟨Except.ok [], Except.ok "ans", Except.error "disk full", "id1", "t0"⟩
        "q" ⟨[], none⟩).2.chatHistory ≠ [] := by
  constructor
  · rfl
  · decide

/-- C1 (amended): whenever `query` fails, the result embeds the error text
in `answer`, has empty `sources`, absent `chat_id` and `success = false`,
and the durable store is untouched; the in-memory history is unchanged when
retrieval or generation raised, while a flush failure during recording
leaves the freshly appended turn in the in-memory history. -/
theorem query_failed_result (env : QueryEnv) (q : String) (st : VaultState)
    (h : (query env q st).1.success = false) :
    QueryFailedSpec env q st := by
  unfold QueryFailedSpec
  rcases env with ⟨r, g, s, nid, nw⟩
  cases r with
  | error e => exact ⟨rfl, rfl, rfl, rfl, rfl⟩
  | ok docs =>
    cases g with
    | error e => exact ⟨rfl, rfl, rfl, rfl, rfl⟩
    | ok ans =>
      cases s with
      | error e =>
        exact ⟨rfl, rfl, rfl, rfl, ⟨⟨nid, nw, q, ans, docs.map mkSnippet⟩, rfl⟩⟩
      | ok u => exact Bool.noConfusion h

/-- C1 witness: the amended failure contract at a concrete retrieval
failure. -/
theorem query_failed_result_witness :
    ((query ⟨Except.error "boom", Except.ok "a", Except.ok (), "id1", "t0"⟩
        "q" ⟨[], none⟩).1.success = false) ∧
    QueryFailedSpec ⟨Except.error "boom", Except.ok "a", Except.ok (), "id1", "t0"⟩
      "q" ⟨[], none⟩ :=
  ⟨rfl, query_failed_result ⟨Except.error "boom", Except.ok "a", Except.ok (),
    "id1", "t0"⟩ "q" ⟨[], none⟩ rfl⟩

/-- C2 (confirmed): every mutating conversation-memory call that returns
leaves the durable store holding exactly the serialization of the in-memory
history — both the flush inside a successful `query` and the one inside
`clear_chat_history` complete synchronously before the call returns. -/
theorem mutations_flush_synchronously (env : QueryEnv) (q : String)
    (st st' : VaultState) (h : (query env q st).1.success = true) :
    (query env q st).2.store
        = some (dumpHistory (query env q st).2.chatHistory) ∧
    (clearChatHistory st').store
        = some (dumpHistory (clearChatHistory st').chatHistory) := by
  refine ⟨?_, rfl⟩
  rcases env with ⟨r, g, s, nid, nw⟩
  cases r with
  | error e => exact Bool.noConfusion h
  | ok docs =>
    cases g with
    | error e => exact Bool.noConfusion h
    | ok ans =>
      cases s with
      | error e => exact Bool.noConfusion h
      | ok u => rfl

/-- C2 witness: the flush invariant at a concrete successful query and a
concrete clear. -/
theorem mutations_flush_synchronously_witness :
    ((query ⟨Except.ok [], Except.ok "ans", Except.ok (), "id1", "t0"⟩
        "q" ⟨[], none⟩).1.success = true) ∧
    ((query ⟨Except.ok [], Except.ok "ans", Except.ok (), "id1", "t0"⟩
        "q" ⟨[], none⟩).2.store
        = some (dumpHistory (query ⟨Except.ok [], Except.ok "ans", Except.ok (),
            "id1", "t0"⟩ "q" ⟨[], none⟩).2.chatHistory) ∧
     (clearChatHistory ⟨[], none⟩).store
        = some (dumpHistory (clearChatHistory ⟨[], none⟩).chatHistory)) :=
  ⟨rfl, mutations_flush_synchronously ⟨Except.ok [], Except.ok "ans",
    Except.ok (), "id1", "t0"⟩ "q" ⟨[], none⟩ ⟨[], none⟩ rfl⟩

end Vault
